import Mathlib

/-!
Verification development for the graph-chain analytics engine
(`src/analytics_engine.py`, with the graph shape from `src/graph_builder.py`).

The engine works over a NetworkX `DiGraph` whose nodes carry a `type`
attribute (`block`, `transaction`, `address`) and whose edges carry a `type`
attribute (`chain`, `block_tx`, `tx_input`, `tx_output`) and an optional
integer `weight`.  We embed the graph as explicit lists of nodes and edges,
and the engine's mutable state (dirty flags, caches, node attributes written
back by the analytics passes) as explicit values threaded through the
functions.  Numeric values that Python handles as floats are embedded as
rationals; the sole genuinely irrational operation (`statistics.stdev`, a
library call) is passed in as a function parameter.
-/

namespace GraphChain

/-- A graph node: id, the `type` attribute, and the `height` attribute
(defaulting to 0, as in `node_data.get('height', 0)`). -/
structure Node where
  id : String
  ntype : String
  height : Int
deriving DecidableEq, Repr

/-- A directed edge: endpoints, the `type` attribute, and the optional
`weight` attribute (`edge_data.get('weight', 0)` reads 0 when absent). -/
structure Edge where
  src : String
  tgt : String
  etype : String
  weight : Option Int
deriving DecidableEq, Repr

/-- The directed graph owned by `GraphBuilder` (`nx.DiGraph`). -/
structure Graph where
  nodes : List Node
  edges : List Edge
deriving DecidableEq, Repr

/-- `self.graph.has_node(node_id)`. -/
def hasNode (g : Graph) (nid : String) : Bool :=
  g.nodes.any fun nd => nd.id = nid

/-- `self.graph.nodes[nid].get('type')`; `none` when the node is absent. -/
def nodeTypeOf (g : Graph) (nid : String) : Option String :=
  (g.nodes.find? fun nd => nd.id = nid).map fun nd => nd.ntype

/-- `self.graph.in_degree(node_id)`: number of edges into the node. -/
def inDegreeCount (g : Graph) (nid : String) : Nat :=
  g.edges.countP fun e => decide (e.tgt = nid)

/-- `self.graph.out_degree(node_id)`: number of edges out of the node. -/
def outDegreeCount (g : Graph) (nid : String) : Nat :=
  g.edges.countP fun e => decide (e.src = nid)

/-- Number of nodes whose `type` attribute is `nt`
(`sum(1 for nid in self.graph.nodes() if self.graph.nodes[nid].get('type') == nt)`). -/
def countTypeNodes (g : Graph) (nt : String) : Nat :=
  g.nodes.countP fun nd => decide (nd.ntype = nt)

/-- Weight of the directed edge `u -> v`:
`self.graph.edges[u, v].get('weight', 0)`. -/
def edgeWeightD (g : Graph) (u v : String) : Int :=
  match g.edges.find? fun e => decide (e.src = u ∧ e.tgt = v) with
  | some e => e.weight.getD 0
  | none => 0

/-- `calculate_type_specific_degree`.  For `block` nodes it counts outgoing
`block_tx` edges; for `transaction` nodes, incoming `tx_input` plus outgoing
`tx_output` edges.  For `address` nodes the source evaluates
`sum(1 for _ in self.graph.edges(node_id))`; on an `nx.DiGraph`,
`graph.edges(n)` iterates only the OUT-edges of `n`, so this counts outgoing
edges only. -/
def calculate_type_specific_degree (g : Graph) (node_id : String) : Nat :=
  if hasNode g node_id = false then 0
  else
    match nodeTypeOf g node_id with
    | some "block" =>
        g.edges.countP fun e => decide (e.src = node_id ∧ e.etype = "block_tx")
    | some "transaction" =>
        (g.edges.countP fun e => decide (e.tgt = node_id ∧ e.etype = "tx_input")) +
        (g.edges.countP fun e => decide (e.src = node_id ∧ e.etype = "tx_output"))
    | some "address" =>
        g.edges.countP fun e => decide (e.src = node_id)
    | _ => 0

/-- The spec's notion for Address nodes: "count of all edges touching the
node (undirected total)", i.e. incoming plus outgoing edges. -/
def touchingEdgeCount (g : Graph) (nid : String) : Nat :=
  outDegreeCount g nid + inDegreeCount g nid

/- ------------------------------------------------------------------ -/
/- Cache invalidation (`_on_graph_update`).                            -/
/- ------------------------------------------------------------------ -/

/-- The per-family dirty flags of the engine (`self._dirty_flags`). -/
structure DirtyFlags where
  degree : Bool
  activity : Bool
  anomaly : Bool
  cluster : Bool
  flow : Bool
deriving DecidableEq, Repr

/-- Invalidation-relevant engine state: dirty flags plus the changed-node
and changed-edge trackers (Python sets, embedded as lists). -/
structure EngineState where
  dirty : DirtyFlags
  changed_nodes : List String
  changed_edges : List (String × String)
deriving DecidableEq, Repr

/-- The fields of a GraphBuilder update event that `_on_graph_update` reads:
`update_data.get('type')`, `update_data.get('node', {}).get('id')`,
`edge.get('from')`, `edge.get('to')`. -/
structure UpdateData where
  etype : Option String
  node_id : Option String
  edge_from : Option String
  edge_to : Option String
deriving DecidableEq, Repr

/-- Python truthiness of an optional string: `None` and `""` are falsy. -/
def truthyS : Option String → Bool
  | none => false
  | some s => decide (s ≠ "")

/-- `_on_graph_update`: a node-added event with a (truthy) node id marks all
five families dirty; an edge-added event with truthy endpoints marks only
`degree` and `activity` dirty, and records the changed edge and nodes. -/
def on_graph_update (st : EngineState) (u : UpdateData) : EngineState :=
  if u.etype = some "node_added" then
    if truthyS u.node_id then
      { dirty := ⟨true, true, true, true, true⟩
        changed_nodes := st.changed_nodes ++ [u.node_id.getD ""]
        changed_edges := st.changed_edges }
    else st
  else if u.etype = some "edge_added" then
    if truthyS u.edge_from && truthyS u.edge_to then
      { dirty := { st.dirty with degree := true, activity := true }
        changed_nodes := st.changed_nodes ++ [u.edge_from.getD "", u.edge_to.getD ""]
        changed_edges := st.changed_edges ++ [(u.edge_from.getD "", u.edge_to.getD "")] }
    else st
  else st

/- ------------------------------------------------------------------ -/
/- Degree cache (`calculate_node_degrees`).                            -/
/- ------------------------------------------------------------------ -/

/-- One entry of the degree cache. -/
structure DegreeMetricR where
  in_degree : Nat
  out_degree : Nat
  total_degree : Nat
deriving DecidableEq, Repr

/-- The recomputation loop of `calculate_node_degrees`: for every node,
in/out/total degree. -/
def computeDegreeMetrics (g : Graph) : List (String × DegreeMetricR) :=
  g.nodes.map fun nd =>
    (nd.id, ⟨inDegreeCount g nd.id, outDegreeCount g nd.id,
             inDegreeCount g nd.id + outDegreeCount g nd.id⟩)

/-- The degree slice of the cache state: its dirty flag and cached value. -/
structure DegreeCacheState where
  dirty_degree : Bool
  degree_cache : List (String × DegreeMetricR)
deriving DecidableEq, Repr

/-- `calculate_node_degrees`, with the recomputation loop abstracted as a
fallible `compute` step (an `Except.error` models an exception raised inside
the loop; the non-failing instance is `computeDegreeMetrics`).  The source
returns the cache when the flag is clean and the cache dict is truthy
(non-empty); otherwise it runs the loop and only afterwards stores the
result and clears the flag, so a raise leaves the state untouched. -/
def calculate_node_degrees_c (g : Graph)
    (compute : Graph → Except Unit (List (String × DegreeMetricR)))
    (st : DegreeCacheState) :
    DegreeCacheState × Except Unit (List (String × DegreeMetricR)) :=
  if st.dirty_degree = false ∧ st.degree_cache ≠ [] then
    (st, Except.ok st.degree_cache)
  else
    match compute g with
    | Except.error e => (st, Except.error e)
    | Except.ok m => (⟨false, m⟩, Except.ok m)

/-- `calculate_node_degrees` with the actual, non-failing loop. -/
def calculate_node_degrees (g : Graph) (st : DegreeCacheState) :
    DegreeCacheState × Except Unit (List (String × DegreeMetricR)) :=
  calculate_node_degrees_c g (fun gg => Except.ok (computeDegreeMetrics gg)) st

/- ------------------------------------------------------------------ -/
/- Activity scorer (`calculate_activity_metrics`,                      -/
/- `normalize_activity_values`).                                       -/
/- ------------------------------------------------------------------ -/

/-- One raw activity entry: `{'raw_value': ..., 'node_type': ...}`. -/
structure ActivityMetric where
  raw_value : ℚ
  node_type : String
deriving DecidableEq, Repr

/-- One normalized activity entry (the raw fields carried through, plus
`normalized_value`, `min_value`, `max_value`). -/
structure NormalizedMetric where
  raw_value : ℚ
  node_type : String
  normalized_value : ℚ
  min_value : ℚ
  max_value : ℚ
deriving DecidableEq, Repr

/-- `min` of a list of rationals; 0 for the empty list, mirroring the
source's `{'min': 0, 'max': 0}` guard for an empty value list. -/
def listMin : List ℚ → ℚ
  | [] => 0
  | x :: xs => xs.foldl min x

/-- `max` of a list of rationals; 0 for the empty list. -/
def listMax : List ℚ → ℚ
  | [] => 0
  | x :: xs => xs.foldl max x

/-- The raw values of the node-type group `t` (the `by_type[t]` list built
by appending every entry of the input whose `node_type` is `t`). -/
def groupRawValues (input : List (String × ActivityMetric)) (t : String) : List ℚ :=
  (input.filter fun p => decide (p.2.node_type = t)).map fun p => p.2.raw_value

/-- `calculate_activity_metrics`: the raw activity of every node is its
type-specific degree (for all three known kinds; other kinds read 0). -/
def calculate_activity_metrics (g : Graph) : List (String × ActivityMetric) :=
  g.nodes.map fun nd =>
    let raw : ℚ :=
      if nd.ntype = "block" ∨ nd.ntype = "transaction" ∨ nd.ntype = "address" then
        (calculate_type_specific_degree g nd.id : ℚ)
      else 0
    (nd.id, ⟨raw, nd.ntype⟩)

/-- `normalize_activity_values`: per node-type group, min/max of the raw
values; a degenerate group (`max == min`) maps every member to exactly 50.0,
otherwise `normalized = (raw - min) / (max - min) * 100`. -/
def normalize_activity_values (input : List (String × ActivityMetric)) :
    List (String × NormalizedMetric) :=
  input.map fun p =>
    let vals := groupRawValues input p.2.node_type
    let min_val := listMin vals
    let max_val := listMax vals
    let normalized_value : ℚ :=
      if max_val = min_val then 50
      else (p.2.raw_value - min_val) / (max_val - min_val) * 100
    (p.1, ⟨p.2.raw_value, p.2.node_type, normalized_value, min_val, max_val⟩)

/- ------------------------------------------------------------------ -/
/- Statistics and anomaly detection.                                   -/
/- ------------------------------------------------------------------ -/

/-- The record returned by `_calculate_statistics`. -/
structure StatsR where
  mean : ℚ
  std : ℚ
  percentile_5 : ℚ
  percentile_95 : ℚ
deriving DecidableEq, Repr

/-- Insertion step of an ascending sort of rationals. -/
def insertLeQ (x : ℚ) : List ℚ → List ℚ
  | [] => [x]
  | y :: ys => if x ≤ y then x :: y :: ys else y :: insertLeQ x ys

/-- `sorted(values)`. -/
def sortQ (l : List ℚ) : List ℚ := l.foldr insertLeQ []

/-- `_calculate_statistics`.  `statistics.stdev` (a standard-library call
computing a square root) is passed in as the `stdev` parameter; it is only
invoked for populations of size > 1, exactly as in the source.  The
percentile indices `int(0.05 * n)` and `min(n - 1, int(0.95 * n))` are
embedded as the exact truncations `n / 20` and `min (n - 1) (19 * n / 20)`. -/
def computeStatistics (stdev : List ℚ → ℚ) (values : List ℚ) : StatsR :=
  if values.isEmpty then ⟨0, 0, 0, 0⟩
  else
    let n := values.length
    let mean := values.sum / (n : ℚ)
    let std := if 1 < n then stdev values else 0
    let sorted := sortQ values
    if n = 1 then ⟨mean, std, sorted.getD 0 0, sorted.getD 0 0⟩
    else ⟨mean, std, sorted.getD (n / 20) 0, sorted.getD (min (n - 1) (19 * n / 20)) 0⟩

/-- Sum of the weights of the outgoing `tx_output` edges of a node
(the "transaction value" metric). -/
def txOutputSum (g : Graph) (nid : String) : ℚ :=
  (((g.edges.filter fun e => decide (e.src = nid ∧ e.etype = "tx_output")).map
      fun e => ((e.weight.getD 0 : Int) : ℚ)).sum)

/-- The value population collected by `calculate_statistics(node_type,
metric_type)`: type-specific degrees for `('block', 'transaction_count')`,
output-weight sums for `('transaction', 'value')`, nothing otherwise. -/
def statisticValues (g : Graph) (node_type metric_type : String) : List ℚ :=
  g.nodes.flatMap fun nd =>
    if nd.ntype = node_type then
      if metric_type = "transaction_count" ∧ node_type = "block" then
        [(calculate_type_specific_degree g nd.id : ℚ)]
      else if metric_type = "value" ∧ node_type = "transaction" then
        [txOutputSum g nd.id]
      else []
    else []

/-- `calculate_statistics` (the public method). -/
def calculate_statistics_m (stdev : List ℚ → ℚ) (g : Graph)
    (node_type metric_type : String) : StatsR :=
  computeStatistics stdev (statisticValues g node_type metric_type)

/-- One anomaly record as built by the detectors. -/
structure Anomaly where
  node_id : String
  node_type : String
  is_anomaly : Bool
  anomaly_score : ℚ
  anomaly_type : String
  actual_value : ℚ
  detection_method : String
  threshold_value : ℚ
deriving DecidableEq, Repr

/-- The per-node value and anomaly label used by all three detectors:
type-specific degree (labelled `high_transaction_count`) for the
`transaction_count` metric, output sum (labelled `high_transaction_value`)
otherwise. -/
def anomalyValue (g : Graph) (metric_type : String) (nid : String) : ℚ :=
  if metric_type = "transaction_count" then (calculate_type_specific_degree g nid : ℚ)
  else txOutputSum g nid

/-- The `anomaly_type` string used by the detectors. -/
def anomalyLabel (metric_type : String) : String :=
  if metric_type = "transaction_count" then "high_transaction_count"
  else "high_transaction_value"

/-- `detect_anomalies_zscore`. -/
def detect_anomalies_zscore (stdev : List ℚ → ℚ) (g : Graph)
    (node_type : String) (threshold : ℚ) : List Anomaly :=
  if node_type = "block" ∨ node_type = "transaction" then
    let metric_type := if node_type = "block" then "transaction_count" else "value"
    let stats := calculate_statistics_m stdev g node_type metric_type
    if stats.std = 0 then []
    else
      g.nodes.flatMap fun nd =>
        if nd.ntype = node_type then
          let actual_value := anomalyValue g metric_type nd.id
          let z : ℚ := if 0 < stats.std then |actual_value - stats.mean| / stats.std else 0
          if threshold < z then
            [⟨nd.id, node_type, true, min 100 (z / threshold * 50), anomalyLabel metric_type,
              actual_value, "zscore", threshold * stats.std⟩]
          else []
        else []
  else []

/-- `detect_anomalies_percentile`. -/
def detect_anomalies_percentile (stdev : List ℚ → ℚ) (g : Graph)
    (node_type : String) : List Anomaly :=
  if node_type = "block" ∨ node_type = "transaction" then
    let metric_type := if node_type = "block" then "transaction_count" else "value"
    let stats := calculate_statistics_m stdev g node_type metric_type
    g.nodes.flatMap fun nd =>
      if nd.ntype = node_type then
        let actual_value := anomalyValue g metric_type nd.id
        if stats.percentile_95 < actual_value ∨ actual_value < stats.percentile_5 then
          let score_factor : ℚ :=
            if stats.percentile_95 < actual_value then
              if stats.mean < stats.percentile_95 then
                (actual_value - stats.percentile_95) / (stats.percentile_95 - stats.mean)
              else 1
            else
              if stats.percentile_5 < stats.mean then
                (stats.percentile_5 - actual_value) / (stats.mean - stats.percentile_5)
              else 1
          [⟨nd.id, node_type, true, min 100 (50 + score_factor * 50),
            anomalyLabel metric_type, actual_value, "percentile",
            if stats.percentile_95 < actual_value then stats.percentile_95
            else stats.percentile_5⟩]
        else []
      else []
  else []

/-- `detect_anomalies_threshold`. -/
def detect_anomalies_threshold (stdev : List ℚ → ℚ) (g : Graph)
    (node_type : String) (threshold : ℚ) : List Anomaly :=
  if node_type = "block" ∨ node_type = "transaction" then
    let metric_type := if node_type = "block" then "transaction_count" else "value"
    let stats := calculate_statistics_m stdev g node_type metric_type
    let threshold_value := threshold * stats.mean
    g.nodes.flatMap fun nd =>
      if nd.ntype = node_type then
        let actual_value := anomalyValue g metric_type nd.id
        if threshold_value < actual_value then
          let score_factor : ℚ :=
            if 0 < threshold_value then (actual_value - threshold_value) / threshold_value
            else 1
          [⟨nd.id, node_type, true, min 100 (50 + score_factor * 50),
            anomalyLabel metric_type, actual_value, "threshold", threshold_value⟩]
        else []
      else []
  else []

/-- The list `node_types_to_check` of `detect_anomalies`:
`[node_type] if node_type else ['block', 'transaction']` (Python truthiness,
so `None` and `""` both fall back to the two standard populations). -/
def nodeTypesToCheck (node_type : Option String) : List String :=
  match node_type with
  | some nt => if nt = "" then ["block", "transaction"] else [nt]
  | none => ["block", "transaction"]

/-- The body of `detect_anomalies`'s loop for one population: skip it
entirely when it has fewer than 10 members, otherwise dispatch on the
detection method (an unknown method yields no anomalies). -/
def detectPopulation (stdev : List ℚ → ℚ) (g : Graph) (nt : String)
    (method : String) (threshold : ℚ) : List Anomaly :=
  if countTypeNodes g nt < 10 then []
  else if method = "zscore" then detect_anomalies_zscore stdev g nt threshold
  else if method = "percentile" then detect_anomalies_percentile stdev g nt
  else if method = "threshold" then detect_anomalies_threshold stdev g nt threshold
  else []

/-- `detect_anomalies`: run the per-population body over every population to
check and concatenate the results. -/
def detect_anomalies (stdev : List ℚ → ℚ) (g : Graph) (node_type : Option String)
    (method : String) (threshold : ℚ) : List Anomaly :=
  (nodeTypesToCheck node_type).flatMap fun nt => detectPopulation stdev g nt method threshold

/-- The anomaly attributes stored on a node (`is_anomaly`, `anomaly_score`,
`anomaly_type`). -/
structure AnomAttr where
  is_anomaly : Bool
  anomaly_score : ℚ
  anomaly_type : Option String
deriving DecidableEq, Repr

/-- The cleared state every node is reset to at the start of
`store_anomaly_attributes`. -/
def anomClear : AnomAttr := ⟨false, 0, none⟩

/-- Pointwise update of a string-keyed attribute map. -/
def updFn {α : Type} (f : String → α) (k : String) (v : α) : String → α :=
  fun x => if x = k then v else f x

/-- Phase 1 of `store_anomaly_attributes`: reset the anomaly attributes of
every node of the graph. -/
def clearAllAnom (attrs : String → AnomAttr) (l : List Node) : String → AnomAttr :=
  l.foldl (fun f nd => updFn f nd.id anomClear) attrs

/-- Phase 2 of `store_anomaly_attributes`: flag each listed node (if it is
in the graph). -/
def setAnoms (g : Graph) (attrs : String → AnomAttr) (l : List Anomaly) :
    String → AnomAttr :=
  l.foldl
    (fun f a =>
      if hasNode g a.node_id then
        updFn f a.node_id ⟨true, a.anomaly_score, some a.anomaly_type⟩
      else f)
    attrs

/-- `store_anomaly_attributes`: clear everything, then set the flagged
nodes. -/
def store_anomaly_attributes (g : Graph) (attrs : String → AnomAttr)
    (anomalies : List Anomaly) : String → AnomAttr :=
  setAnoms g (clearAllAnom attrs g.nodes) anomalies

/-- `get_anomalies`: detect, store the attributes, return the anomalies
(paired here with the updated attribute map). -/
def get_anomalies (stdev : List ℚ → ℚ) (g : Graph) (node_type : Option String)
    (method : String) (threshold : ℚ) (attrs : String → AnomAttr) :
    List Anomaly × (String → AnomAttr) :=
  let anomalies := detect_anomalies stdev g node_type method threshold
  (anomalies, store_anomaly_attributes g attrs anomalies)

/- ------------------------------------------------------------------ -/
/- Recent-block window (`get_recent_blocks`).                          -/
/- ------------------------------------------------------------------ -/

/-- Descending-lexicographic comparison on (height, id) pairs, as produced
by Python's `list.sort(reverse=True)` on tuples. -/
def pairBefore (a b : Int × String) : Bool :=
  if a.1 = b.1 then decide (¬ a.2 < b.2) else decide (b.1 < a.1)

/-- Insertion step of the descending sort. -/
def insertPairDesc (x : Int × String) : List (Int × String) → List (Int × String)
  | [] => [x]
  | y :: ys => if pairBefore x y then x :: y :: ys else y :: insertPairDesc x ys

/-- `block_nodes.sort(reverse=True)`. -/
def sortPairsDesc (l : List (Int × String)) : List (Int × String) :=
  l.foldr insertPairDesc []

/-- `get_recent_blocks`: the `time_window_blocks` highest blocks, expanded
with the transactions they contain (`block_tx` out-edges) and the addresses
touching those transactions (`tx_input` in-edges, `tx_output` out-edges).
The Python set of node ids is embedded as a deduplicated list. -/
def get_recent_blocks (g : Graph) (time_window_blocks : Nat) : List String :=
  let blockPairs := g.nodes.filterMap fun nd =>
    if nd.ntype = "block" then some (nd.height, nd.id) else none
  if blockPairs.isEmpty then []
  else
    let recentBlockIds := ((sortPairsDesc blockPairs).take time_window_blocks).map Prod.snd
    let txsOf := fun (b : String) =>
      (g.edges.filter fun e => decide (e.src = b ∧ e.etype = "block_tx")).map Edge.tgt
    let addrsOf := fun (t : String) =>
      ((g.edges.filter fun e => decide (e.tgt = t ∧ e.etype = "tx_input")).map Edge.src) ++
      ((g.edges.filter fun e => decide (e.src = t ∧ e.etype = "tx_output")).map Edge.tgt)
    (recentBlockIds ++ recentBlockIds.flatMap txsOf ++
      (recentBlockIds.flatMap txsOf).flatMap addrsOf).dedup

/-- The `address_nodes` list filtered out of a window:
`[nid for nid in recent_nodes if graph.nodes[nid].get('type') == 'address']`. -/
def addressNodesOf (g : Graph) (recent : List String) : List String :=
  recent.filter fun nid => decide (nodeTypeOf g nid = some "address")

/- ------------------------------------------------------------------ -/
/- Community clusterer: undirected projections and `get_clusters`.     -/
/- ------------------------------------------------------------------ -/

/-- The undirected projection graph (`nx.Graph`): node list plus an edge
list in which each unordered pair appears at most once. -/
structure UGraph where
  nodesU : List String
  edgesU : List (String × String)
deriving DecidableEq, Repr

/-- Whether a stored edge connects the unordered pair {a, b}. -/
def edgeMatches (a b : String) (e : String × String) : Bool :=
  decide ((e.1 = a ∧ e.2 = b) ∨ (e.1 = b ∧ e.2 = a))

/-- `subgraph.has_edge(a, b)` (symmetric). -/
def hasEdgeU (sg : UGraph) (a b : String) : Bool :=
  sg.edgesU.any (edgeMatches a b)

/-- How many stored edges connect the unordered pair {a, b}. -/
def edgeCountU (sg : UGraph) (a b : String) : Nat :=
  sg.edgesU.countP (edgeMatches a b)

/-- `if not subgraph.has_edge(a, b): subgraph.add_edge(a, b)`. -/
def addEdgeIfAbsent (sg : UGraph) (a b : String) : UGraph :=
  if hasEdgeU sg a b then sg else ⟨sg.nodesU, sg.edgesU ++ [(a, b)]⟩

/-- The inner loop `for addr2 in all_addresses[i+1:]`. -/
def addPairsFrom (sg : UGraph) (a : String) (rest : List String) : UGraph :=
  rest.foldl (fun s b => addEdgeIfAbsent s a b) sg

/-- The double loop `for i, addr1 in enumerate(all_addresses): for addr2 in
all_addresses[i+1:]`: connect every ordered-position pair i < j. -/
def addAllPairs (sg : UGraph) : List String → UGraph
  | [] => sg
  | a :: rest => addAllPairs (addPairsFrom sg a rest) rest

/-- The `input_addresses + output_addresses` list of one transaction in
`create_address_subgraph`: in-window input addresses (sources of `tx_input`
in-edges that are in the window's address list) followed by in-window output
addresses (targets of `tx_output` out-edges). -/
def allAddressesOf (g : Graph) (recent : List String) (tx : String) : List String :=
  let address_nodes := addressNodesOf g recent
  ((g.edges.filter fun e =>
      decide (e.tgt = tx ∧ e.etype = "tx_input" ∧ e.src ∈ address_nodes)).map Edge.src) ++
  ((g.edges.filter fun e =>
      decide (e.src = tx ∧ e.etype = "tx_output" ∧ e.tgt ∈ address_nodes)).map Edge.tgt)

/-- The per-window-node step of `create_address_subgraph`'s outer loop:
skip everything that is not a transaction, otherwise pairwise-connect the
transaction's in-window addresses. -/
def projStep (g : Graph) (recent : List String) (sg : UGraph) (tx_id : String) : UGraph :=
  if nodeTypeOf g tx_id = some "transaction" then
    addAllPairs sg (allAddressesOf g recent tx_id)
  else sg

/-- `create_address_subgraph`: the address nodes of the window, plus one
undirected edge for every pair of addresses co-occurring on a transaction. -/
def create_address_subgraph (g : Graph) (recent : List String) : UGraph :=
  recent.foldl (projStep g recent) ⟨addressNodesOf g recent, []⟩

/-- `create_transaction_subgraph`: the transaction nodes of the window,
with transactions connected whenever they share an address.  The
`address_to_txs` mapping is embedded as the list of (address, transaction)
append events in loop order. -/
def create_transaction_subgraph (g : Graph) (recent : List String) : UGraph :=
  let transaction_nodes := recent.filter fun nid =>
    decide (nodeTypeOf g nid = some "transaction")
  let appends : List (String × String) := transaction_nodes.flatMap fun tx =>
    ((g.edges.filter fun e => decide (e.tgt = tx ∧ e.etype = "tx_input")).map
        fun e => (e.src, tx)) ++
    ((g.edges.filter fun e => decide (e.src = tx ∧ e.etype = "tx_output")).map
        fun e => (e.tgt, tx))
  let keys := (appends.map Prod.fst).dedup
  keys.foldl
    (fun sg addr =>
      addAllPairs sg ((appends.filter fun p => decide (p.1 = addr)).map Prod.snd))
    ⟨transaction_nodes, []⟩

/-- `cluster_addresses`: window, projection, the <2-node guard, and greedy
modularity community detection.  `nx.community.greedy_modularity_communities`
is a NetworkX library call, embedded as the `communities` parameter; the
source wraps it in `try/except` returning `{}` on any failure, which the
`none` result models. -/
def cluster_addresses (communities : UGraph → Option (List (List String)))
    (g : Graph) (time_window_blocks : Nat) : List (Nat × List String) :=
  let recent := get_recent_blocks g time_window_blocks
  let subgraph := create_address_subgraph g recent
  if subgraph.nodesU.length < 2 then []
  else
    match communities subgraph with
    | none => []
    | some comms => comms.enum

/-- `cluster_transactions` (same shape as `cluster_addresses`). -/
def cluster_transactions (communities : UGraph → Option (List (List String)))
    (g : Graph) (time_window_blocks : Nat) : List (Nat × List String) :=
  let recent := get_recent_blocks g time_window_blocks
  let subgraph := create_transaction_subgraph g recent
  if subgraph.nodesU.length < 2 then []
  else
    match communities subgraph with
    | none => []
    | some comms => comms.enum

/-- The cluster attributes stored on a node (`cluster_id`, `cluster_type`,
`cluster_color`); `none` is an attribute that is absent or `None`. -/
structure ClusterAttr where
  cluster_id : Option Int
  cluster_type : Option String
  cluster_color : Option String
deriving DecidableEq, Repr

/-- The 10-color palette used by `store_cluster_attributes`. -/
def paletteStore : List String :=
  ["#FF5733", "#33FF57", "#3357FF", "#FF33F5", "#F5FF33",
   "#33FFF5", "#FF8C33", "#8C33FF", "#33FF8C", "#FF338C"]

/-- The (differently ordered) 10-color palette used by the report section of
`get_clusters`. -/
def paletteReport : List String :=
  ["#FF5733", "#33FF57", "#3357FF", "#33FFF5", "#FF33F5",
   "#F5FF33", "#FF8C33", "#8C33FF", "#33FF8C", "#FF338C"]

/-- `store_cluster_attributes`: first clear the cluster attributes of every
node whose current `cluster_type` equals the given one, then assign id,
type and a round-robin palette color to every member of every cluster. -/
def store_cluster_attributes (g : Graph) (attrs : String → ClusterAttr)
    (clusters : List (Nat × List String)) (cluster_type : String) :
    String → ClusterAttr :=
  let cleared := g.nodes.foldl
    (fun f nd =>
      if (f nd.id).cluster_type = some cluster_type then
        updFn f nd.id ⟨some (-1), none, none⟩
      else f)
    attrs
  clusters.foldl
    (fun f c =>
      let color := paletteStore.getD (c.1 % 10) ""
      c.2.foldl
        (fun f2 nid =>
          if hasNode g nid then
            updFn f2 nid ⟨some (c.1 : Int), some cluster_type, some color⟩
          else f2)
        f)
    cleared

/-- One entry of the cluster list returned by `get_clusters`. -/
structure ClusterEntry where
  cluster_id : Nat
  node_ids : List String
  size : Nat
  color_hex : String
deriving DecidableEq, Repr

/-- The dictionary returned by `get_clusters`. -/
structure ClusterResult where
  clusters : List ClusterEntry
  cluster_type : String
  time_window_blocks : Nat
  total_clusters : Nat
  nodes_clustered : Nat
deriving DecidableEq, Repr

/-- `get_clusters`: dispatch on the cluster type (any unknown type yields
the empty cluster map), store the attributes, and format the response.
The function raises no error; it always returns an ordinary result. -/
def get_clusters (communities : UGraph → Option (List (List String)))
    (g : Graph) (attrs : String → ClusterAttr) (cluster_type : String)
    (time_window_blocks : Nat) : ClusterResult × (String → ClusterAttr) :=
  let clusters : List (Nat × List String) :=
    if cluster_type = "address" then cluster_addresses communities g time_window_blocks
    else if cluster_type = "transaction" then
      cluster_transactions communities g time_window_blocks
    else []
  let attrsOut := store_cluster_attributes g attrs clusters cluster_type
  let cluster_list := clusters.map fun c =>
    ⟨c.1, c.2, c.2.length, paletteReport.getD (c.1 % 10) ""⟩
  (⟨cluster_list, cluster_type, time_window_blocks, clusters.length,
    (clusters.map fun c => c.2.length).sum⟩, attrsOut)

/- ------------------------------------------------------------------ -/
/- Flow tracer.                                                        -/
/- ------------------------------------------------------------------ -/

/-- One edge of a flow path (`{'from': ..., 'to': ..., 'value': ...}`). -/
structure PathEdge where
  efrom : String
  eto : String
  value : Int
deriving DecidableEq, Repr

/-- One flow path dictionary. -/
structure FlowPath where
  path_id : String
  start_address : String
  end_address : String
  path_nodes : List String
  path_edges : List PathEdge
  total_value : Int
  path_length : Nat
  is_complete : Bool
deriving DecidableEq, Repr

/-- Builds the 3-node path dictionary shared by both flow generators:
nodes `[a, t, o]`, edge values `[0, w]`, `path_length = len(path_nodes) - 1`. -/
def mkFlowPath (a t o : String) (w : Int) : FlowPath :=
  let path_nodes := [a, t, o]
  let path_edges : List PathEdge := [⟨a, t, 0⟩, ⟨t, o, w⟩]
  { path_id := "flow_" ++ a ++ "_" ++ t ++ "_" ++ o
    start_address := a
    end_address := o
    path_nodes := path_nodes
    path_edges := path_edges
    total_value := (path_edges.map PathEdge.value).sum
    path_length := path_nodes.length - 1
    is_complete := true }

/-- `find_flow_paths_from_address`.  The source iterates
`for tx_id, _, edge_data in self.graph.out_edges(start_address, data=True)`;
`out_edges` yields `(u, v, data)` tuples with `u = start_address`, so the
name `tx_id` binds the edge SOURCE, i.e. `start_address` itself, not the
transaction at the other end.  The embedding reproduces that binding
(`e.src`) faithfully. -/
def find_flow_paths_from_address (g : Graph) (start_address : String)
    (max_depth max_blocks : Nat) : List FlowPath :=
  if hasNode g start_address = false then []
  else
    let recent := get_recent_blocks g max_blocks
    if (start_address ∈ recent : Bool) = false then []
    else
      let input_txs := (g.edges.filter fun e =>
        decide (e.src = start_address ∧ e.etype = "tx_input" ∧ e.src ∈ recent)).map Edge.src
      input_txs.flatMap fun tx_id =>
        let output_addresses := (g.edges.filter fun e =>
          decide (e.src = tx_id ∧ e.etype = "tx_output" ∧ e.tgt ∈ recent)).map Edge.tgt
        output_addresses.map fun output_addr =>
          mkFlowPath start_address tx_id output_addr (edgeWeightD g tx_id output_addr)

/-- `find_flow_paths_from_transaction`: one path per (in-window input
address, in-window output address) pair of the transaction. -/
def find_flow_paths_from_transaction (g : Graph) (transaction_id : String)
    (max_depth max_blocks : Nat) : List FlowPath :=
  if hasNode g transaction_id = false then []
  else
    let recent := get_recent_blocks g max_blocks
    if (transaction_id ∈ recent : Bool) = false then []
    else
      let input_addresses := (g.edges.filter fun e =>
        decide (e.tgt = transaction_id ∧ e.etype = "tx_input" ∧ e.src ∈ recent)).map Edge.src
      let output_addresses := (g.edges.filter fun e =>
        decide (e.src = transaction_id ∧ e.etype = "tx_output" ∧ e.tgt ∈ recent)).map Edge.tgt
      input_addresses.flatMap fun input_addr =>
        output_addresses.map fun output_addr =>
          mkFlowPath input_addr transaction_id output_addr
            (edgeWeightD g transaction_id output_addr)

/-- `limit_path_depth`: keep the paths whose `path_length` is at most
`max_depth`. -/
def limit_path_depth (paths : List FlowPath) (max_depth : Nat) : List FlowPath :=
  paths.filter fun p => decide (p.path_length ≤ max_depth)

/-- The branch dispatch of `get_flow_paths` (everything before the final
depth filter): a truthy `transaction_id` takes the transaction branch, else
a truthy `start_address` takes the address branch, else every address of
the window is enumerated and the per-address results concatenated. -/
def flowPathsGenerated (g : Graph) (start_address transaction_id : Option String)
    (max_depth max_blocks : Nat) : List FlowPath :=
  if truthyS transaction_id then
    find_flow_paths_from_transaction g (transaction_id.getD "") max_depth max_blocks
  else if truthyS start_address then
    find_flow_paths_from_address g (start_address.getD "") max_depth max_blocks
  else
    (addressNodesOf g (get_recent_blocks g max_blocks)).flatMap fun addr_id =>
      find_flow_paths_from_address g addr_id max_depth max_blocks

/-- `get_flow_paths`: the branch dispatch followed by `limit_path_depth`. -/
def get_flow_paths (g : Graph) (start_address transaction_id : Option String)
    (max_depth max_blocks : Nat) : List FlowPath :=
  limit_path_depth (flowPathsGenerated g start_address transaction_id max_depth max_blocks)
    max_depth

/- ------------------------------------------------------------------ -/
/- Concrete graphs used by witnesses and counterexamples.              -/
/- ------------------------------------------------------------------ -/

/-- A two-node graph: address `A` with one outgoing `tx_input` edge to `T`
and one incoming `tx_output` edge from `T`. -/
def cexG1 : Graph :=
  { nodes := [⟨"A", "address", 0⟩, ⟨"T", "transaction", 0⟩]
    edges := [⟨"A", "T", "tx_input", none⟩, ⟨"T", "A", "tx_output", some 5⟩] }

/-- One block `b1` containing two transactions: `t1` spending from `a1` to
`a2` and `t2` spending from `a3` to `a4`. -/
def exG : Graph :=
  { nodes := [⟨"b1", "block", 1⟩, ⟨"t1", "transaction", 0⟩, ⟨"t2", "transaction", 0⟩,
              ⟨"a1", "address", 0⟩, ⟨"a2", "address", 0⟩,
              ⟨"a3", "address", 0⟩, ⟨"a4", "address", 0⟩]
    edges := [⟨"b1", "t1", "block_tx", none⟩, ⟨"b1", "t2", "block_tx", none⟩,
              ⟨"a1", "t1", "tx_input", none⟩, ⟨"t1", "a2", "tx_output", some 100⟩,
              ⟨"a3", "t2", "tx_input", none⟩, ⟨"t2", "a4", "tx_output", some 5⟩] }

/-- A transaction `t3` whose single input address `a5` is also its output
address. -/
def exG10 : Graph :=
  { nodes := [⟨"t3", "transaction", 0⟩, ⟨"a5", "address", 0⟩]
    edges := [⟨"a5", "t3", "tx_input", none⟩, ⟨"t3", "a5", "tx_output", some 7⟩] }

/-- An all-absent cluster attribute map. -/
def cAttrs0 : String → ClusterAttr := fun _ => ⟨none, none, none⟩

/-- An anomaly attribute map in which node `a1` is flagged from an earlier
detection pass. -/
def attrs7 : String → AnomAttr := fun n =>
  if n = "a1" then ⟨true, 77, some "high_transaction_value"⟩ else anomClear

/-- The activity input of the normalization witness: two blocks with raw
values 3 and 7. -/
def c6input : List (String × ActivityMetric) :=
  [("n1", ⟨3, "block"⟩), ("n2", ⟨7, "block"⟩)]

/-- The normalized record the witness expects for `n2`. -/
def c6m : NormalizedMetric := ⟨7, "block", 100, 3, 7⟩

/-- An engine state with every dirty flag clear. -/
def st4 : EngineState := ⟨⟨false, false, false, false, false⟩, [], []⟩

/-- A node-added event carrying a node id. -/
def u4n : UpdateData := ⟨some "node_added", some "n1", none, none⟩

/-- An edge-added event carrying both endpoints. -/
def u4e : UpdateData := ⟨some "edge_added", none, some "x", some "y"⟩

/-- A degree-cache state that is dirty but still holds a stale cached
value. -/
def st5 : DegreeCacheState := ⟨true, [("old", ⟨1, 1, 2⟩)]⟩

/- ================================================================== -/
/- Theorems.                                                           -/
/- ================================================================== -/

/-- C1: the spec says the type-specific degree of an Address node is the
undirected total of incoming plus outgoing edges; the code evaluates
`sum(1 for _ in self.graph.edges(node_id))`, and on a `DiGraph` that
iterates only out-edges.  At the failing input (address `A` with one
outgoing `tx_input` edge and one incoming `tx_output` edge) the code
returns 1 although the node has 2 touching edges — contradicting both the
spec and the code's own comment ("count edges where address participates"). -/
theorem tsd_address_out_edges_only :
    calculate_type_specific_degree cexG1 "A" = 1 ∧ touchingEdgeCount cexG1 "A" = 2 := by
  decide

/-- C4: a node-added event with a node id marks all five metric families
dirty; an edge-added event with both endpoints marks exactly the degree and
activity families dirty, leaving anomaly, cluster and flow unchanged. -/
theorem on_graph_update_dirty_flags (st : EngineState) (u : UpdateData) :
    (u.etype = some "node_added" → truthyS u.node_id = true →
      (on_graph_update st u).dirty = ⟨true, true, true, true, true⟩) ∧
    (u.etype = some "edge_added" → truthyS u.edge_from = true →
      truthyS u.edge_to = true →
      (on_graph_update st u).dirty.degree = true ∧
      (on_graph_update st u).dirty.activity = true ∧
      (on_graph_update st u).dirty.anomaly = st.dirty.anomaly ∧
      (on_graph_update st u).dirty.cluster = st.dirty.cluster ∧
      (on_graph_update st u).dirty.flow = st.dirty.flow) := by
  constructor
  · intro h1 h2
    simp [on_graph_update, h1, h2]
  · intro h1 h2 h3
    simp [on_graph_update, h1, h2, h3]

/-- Witness for C4 at concrete events: a node-added event sets every flag,
an edge-added event sets degree and activity and leaves the rest as in the
all-clear state `st4`. -/
theorem on_graph_update_dirty_flags_witness :
    (on_graph_update st4 u4n).dirty = ⟨true, true, true, true, true⟩ ∧
    ((on_graph_update st4 u4e).dirty.degree = true ∧
     (on_graph_update st4 u4e).dirty.activity = true ∧
     (on_graph_update st4 u4e).dirty.anomaly = st4.dirty.anomaly ∧
     (on_graph_update st4 u4e).dirty.cluster = st4.dirty.cluster ∧
     (on_graph_update st4 u4e).dirty.flow = st4.dirty.flow) :=
  ⟨(on_graph_update_dirty_flags st4 u4n).1 rfl (by decide),
   (on_graph_update_dirty_flags st4 u4e).2 rfl (by decide) (by decide)⟩

/-- C5: if the recomputation step of `calculate_node_degrees` raises while
the degree family is dirty, the dirty flag stays set, the previously cached
value is untouched, and the error propagates to the caller. -/
theorem degree_cache_error_preserves_state (g : Graph)
    (compute : Graph → Except Unit (List (String × DegreeMetricR)))
    (st : DegreeCacheState) (hc : compute g = Except.error ())
    (hd : st.dirty_degree = true) :
    calculate_node_degrees_c g compute st = (st, Except.error ()) := by
  simp [calculate_node_degrees_c, hd, hc]

/-- Witness for C5: a failing compute step on the dirty state `st5` leaves
the state (flag and stale cache) unchanged and returns the error. -/
theorem degree_cache_error_preserves_state_witness :
    calculate_node_degrees_c exG (fun _ => Except.error ()) st5 =
      (st5, Except.error ()) :=
  degree_cache_error_preserves_state exG (fun _ => Except.error ()) st5 rfl rfl

/-- C8: a population with fewer than 10 members contributes no anomalies
for any method and threshold, and an unspecified node kind runs the Block
and Transaction populations independently and concatenates their results. -/
theorem anomaly_small_population_guard (stdev : List ℚ → ℚ) (g : Graph)
    (method : String) (threshold : ℚ) :
    (∀ nt : String, countTypeNodes g nt < 10 →
      detectPopulation stdev g nt method threshold = []) ∧
    detect_anomalies stdev g none method threshold =
      detectPopulation stdev g "block" method threshold ++
      detectPopulation stdev g "transaction" method threshold := by
  constructor
  · intro nt h
    simp [detectPopulation, h]
  · simp [detect_anomalies, nodeTypesToCheck]

/-- Witness for C8: the example graph has a single block, so the block
population is skipped, and the unspecified-kind run is the concatenation of
the two per-population runs. -/
theorem anomaly_small_population_guard_witness :
    countTypeNodes exG "block" < 10 ∧
    detectPopulation (fun _ => 0) exG "block" "percentile" 2 = [] ∧
    detect_anomalies (fun _ => 0) exG none "percentile" 2 =
      detectPopulation (fun _ => 0) exG "block" "percentile" 2 ++
      detectPopulation (fun _ => 0) exG "transaction" "percentile" 2 :=
  ⟨by decide,
   (anomaly_small_population_guard (fun _ => 0) exG "percentile" 2).1 "block" (by decide),
   (anomaly_small_population_guard (fun _ => 0) exG "percentile" 2).2⟩

/-- When no node carries the given cluster type, the clearing pass of
`store_cluster_attributes` changes nothing. -/
theorem clearClusterFold_noop (g : Graph) (attrs : String → ClusterAttr)
    (ct : String) (h : ∀ n, (attrs n).cluster_type ≠ some ct) (l : List Node) :
    l.foldl
      (fun f nd =>
        if (f nd.id).cluster_type = some ct then
          updFn f nd.id ⟨some (-1), none, none⟩
        else f)
      attrs = attrs := by
  induction l with
  | nil => rfl
  | cons nd rest ih =>
    simp only [List.foldl_cons]
    rw [if_neg (h nd.id)]
    exact ih

/-- C3 (amended): `get_clusters` with an unknown cluster type raises no
error and attempts no clustering: it returns an ordinary result with an
empty cluster list, zero totals, and (when no node carries the unknown
type) leaves every node's cluster attributes untouched. -/
theorem get_clusters_unknown_type
    (communities : UGraph → Option (List (List String))) (g : Graph)
    (attrs : String → ClusterAttr) (ct : String) (twb : Nat)
    (h1 : ct ≠ "address") (h2 : ct ≠ "transaction") :
    ((get_clusters communities g attrs ct twb).1.clusters = [] ∧
     (get_clusters communities g attrs ct twb).1.total_clusters = 0 ∧
     (get_clusters communities g attrs ct twb).1.nodes_clustered = 0 ∧
     (get_clusters communities g attrs ct twb).1.cluster_type = ct) ∧
    ((∀ n, (attrs n).cluster_type ≠ some ct) →
      ∀ n, (get_clusters communities g attrs ct twb).2 n = attrs n) := by
  constructor
  · simp [get_clusters, h1, h2]
  · intro hattr n
    simp only [get_clusters, h1, h2, if_false, store_cluster_attributes,
      List.foldl_nil, ite_false]
    rw [clearClusterFold_noop g attrs ct hattr]

/-- Counterexample for C3: at the concrete unknown cluster type `"foo"`,
`get_clusters` surfaces no error at all — it returns an ordinary result
(with an empty cluster list), contradicting the claim that an InvalidInput
error is surfaced and no ordinary result is returned. -/
theorem get_clusters_unknown_type_cex :
    (get_clusters (fun _ => none) exG cAttrs0 "foo" 30).1 =
      ⟨[], "foo", 30, 0, 0⟩ := by
  decide

/-- Witness for C3 (amended) at the concrete unknown type `"foo"`: empty
cluster list and an untouched attribute map. -/
theorem get_clusters_unknown_type_witness :
    (get_clusters (fun _ => none) exG cAttrs0 "foo" 30).1.clusters = [] ∧
    (get_clusters (fun _ => none) exG cAttrs0 "foo" 30).2 "a1" = cAttrs0 "a1" :=
  ⟨((get_clusters_unknown_type (fun _ => none) exG cAttrs0 "foo" 30
      (by decide) (by decide)).1).1,
   (get_clusters_unknown_type (fun _ => none) exG cAttrs0 "foo" 30
      (by decide) (by decide)).2 (fun n => by simp [cAttrs0]) "a1"⟩

/-- C2 (amended): when neither start parameter is truthy, `get_flow_paths`
is the depth-filtered concatenation over all address starts of the window;
when a transaction id is given — even together with a start address — the
transaction branch takes precedence and no enumeration happens. -/
theorem get_flow_paths_dispatch (g : Graph) (sa tid : Option String) (d b : Nat) :
    (truthyS tid = false → truthyS sa = false →
      get_flow_paths g sa tid d b =
        limit_path_depth
          ((addressNodesOf g (get_recent_blocks g b)).flatMap fun a =>
            find_flow_paths_from_address g a d b) d) ∧
    (truthyS tid = true →
      get_flow_paths g sa tid d b =
        limit_path_depth (find_flow_paths_from_transaction g (tid.getD "") d b) d) := by
  constructor
  · intro h1 h2
    simp [get_flow_paths, flowPathsGenerated, h1, h2]
  · intro h1
    simp [get_flow_paths, flowPathsGenerated, h1]

/-- Counterexample for C2: with both start parameters given, the result is
NOT the concatenation over all address starts of the window (here the
transaction branch yields one path while the address enumeration yields
none). -/
theorem get_flow_paths_both_given_cex :
    get_flow_paths exG (some "a1") (some "t1") 5 5 ≠
      (addressNodesOf exG (get_recent_blocks exG 5)).flatMap
        (fun a => find_flow_paths_from_address exG a 5 5) := by
  decide

/-- Witness for C2 (amended) at concrete calls: the no-parameter call
equals the filtered enumeration; the both-parameter call equals the
transaction branch. -/
theorem get_flow_paths_dispatch_witness :
    get_flow_paths exG none none 5 5 =
      limit_path_depth
        ((addressNodesOf exG (get_recent_blocks exG 5)).flatMap fun a =>
          find_flow_paths_from_address exG a 5 5) 5 ∧
    get_flow_paths exG (some "a1") (some "t1") 5 5 =
      limit_path_depth (find_flow_paths_from_transaction exG "t1" 5 5) 5 :=
  ⟨(get_flow_paths_dispatch exG none none 5 5).1 rfl rfl,
   (get_flow_paths_dispatch exG (some "a1") (some "t1") 5 5).2 (by decide)⟩

/-- Every path built by the address-start generator has two hops. -/
theorem path_length_from_address (g : Graph) (a : String) (d b : Nat) :
    ∀ p ∈ find_flow_paths_from_address g a d b, p.path_length = 2 := by
  intro p hp
  simp only [find_flow_paths_from_address] at hp
  split at hp
  · exact absurd hp (List.not_mem_nil p)
  · split at hp
    · exact absurd hp (List.not_mem_nil p)
    · simp only [List.mem_flatMap, List.mem_map] at hp
      obtain ⟨tx, _, oa, _, hpe⟩ := hp
      subst hpe
      rfl

/-- Every path built by the transaction-start generator has two hops. -/
theorem path_length_from_transaction (g : Graph) (t : String) (d b : Nat) :
    ∀ p ∈ find_flow_paths_from_transaction g t d b, p.path_length = 2 := by
  intro p hp
  simp only [find_flow_paths_from_transaction] at hp
  split at hp
  · exact absurd hp (List.not_mem_nil p)
  · split at hp
    · exact absurd hp (List.not_mem_nil p)
    · simp only [List.mem_flatMap, List.mem_map] at hp
      obtain ⟨ia, _, oa, _, hpe⟩ := hp
      subst hpe
      rfl

/-- Every path produced by the branch dispatch of `get_flow_paths` has two
hops. -/
theorem path_length_generated (g : Graph) (sa tid : Option String) (d b : Nat) :
    ∀ p ∈ flowPathsGenerated g sa tid d b, p.path_length = 2 := by
  intro p hp
  simp only [flowPathsGenerated] at hp
  split at hp
  · exact path_length_from_transaction g (tid.getD "") d b p hp
  · split at hp
    · exact path_length_from_address g (sa.getD "") d b p hp
    · simp only [List.mem_flatMap] at hp
      obtain ⟨a, _, hp⟩ := hp
      exact path_length_from_address g a d b p hp

/-- C9 (amended): every generated flow path has `path_length` exactly 2,
and for every `max_depth ≥ 2` the final `path_length ≤ max_depth` filter
keeps everything, so `get_flow_paths` returns the generated paths
unchanged.  (For `max_depth < 2` the filter drops every path — see the
counterexample.) -/
theorem flow_paths_fixed_depth_two (g : Graph) (a t : String)
    (sa tid : Option String) (d b : Nat) :
    (∀ p ∈ find_flow_paths_from_address g a d b, p.path_length = 2) ∧
    (∀ p ∈ find_flow_paths_from_transaction g t d b, p.path_length = 2) ∧
    (2 ≤ d →
      get_flow_paths g sa tid d b = flowPathsGenerated g sa tid d b) := by
  refine ⟨path_length_from_address g a d b, path_length_from_transaction g t d b, ?_⟩
  intro hd
  unfold get_flow_paths limit_path_depth
  apply List.filter_eq_self.mpr
  intro p hp
  have h2 := path_length_generated g sa tid d b p hp
  simp only [h2, decide_eq_true_eq]
  exact hd

/-- Counterexample for C9: with `max_depth = 1` the generated depth-2 path
fails the `path_length ≤ max_depth` filter and `get_flow_paths` drops it,
so the filter does not hold for every value of `max_depth`. -/
theorem flow_depth_filter_cex :
    (∃ p ∈ find_flow_paths_from_transaction exG "t1" 1 5, ¬ p.path_length ≤ 1) ∧
    find_flow_paths_from_transaction exG "t1" 1 5 ≠ [] ∧
    get_flow_paths exG none (some "t1") 1 5 = [] := by
  decide

/-- Witness for C9 (amended) at a concrete graph: the generated path has
two hops and `get_flow_paths` with `max_depth = 5` returns the generated
paths unchanged. -/
theorem flow_paths_fixed_depth_two_witness :
    (mkFlowPath "a1" "t1" "a2" 100).path_length = 2 ∧
    get_flow_paths exG none (some "t1") 5 5 =
      flowPathsGenerated exG none (some "t1") 5 5 :=
  ⟨(flow_paths_fixed_depth_two exG "a1" "t1" none (some "t1") 5 5).2.1
      (mkFlowPath "a1" "t1" "a2" 100) (by decide),
   (flow_paths_fixed_depth_two exG "a1" "t1" none (some "t1") 5 5).2.2
      (by norm_num)⟩

/-- A `min`-fold is bounded by its accumulator and by every member. -/
theorem foldl_min_bound (xs : List ℚ) :
    ∀ acc : ℚ, xs.foldl min acc ≤ acc ∧ ∀ a ∈ xs, xs.foldl min acc ≤ a := by
  induction xs with
  | nil => intro acc; exact ⟨le_refl acc, fun a ha => absurd ha (List.not_mem_nil a)⟩
  | cons y ys ih =>
    intro acc
    constructor
    · exact le_trans (ih (min acc y)).1 (min_le_left acc y)
    · intro a ha
      rcases List.mem_cons.mp ha with h | h
      · subst h
        exact le_trans (ih (min acc a)).1 (min_le_right acc a)
      · exact (ih (min acc y)).2 a h

/-- A `max`-fold dominates its accumulator and every member. -/
theorem foldl_max_bound (xs : List ℚ) :
    ∀ acc : ℚ, acc ≤ xs.foldl max acc ∧ ∀ a ∈ xs, a ≤ xs.foldl max acc := by
  induction xs with
  | nil => intro acc; exact ⟨le_refl acc, fun a ha => absurd ha (List.not_mem_nil a)⟩
  | cons y ys ih =>
    intro acc
    constructor
    · exact le_trans (le_max_left acc y) (ih (max acc y)).1
    · intro a ha
      rcases List.mem_cons.mp ha with h | h
      · subst h
        exact le_trans (le_max_right acc a) (ih (max acc a)).1
      · exact (ih (max acc y)).2 a h

/-- `listMin` is a lower bound of the list. -/
theorem listMin_le_of_mem {a : ℚ} {l : List ℚ} (h : a ∈ l) : listMin l ≤ a := by
  cases l with
  | nil => exact absurd h (List.not_mem_nil a)
  | cons x xs =>
    rcases List.mem_cons.mp h with h1 | h1
    · subst h1
      exact (foldl_min_bound xs a).1
    · exact (foldl_min_bound xs x).2 a h1

/-- `listMax` is an upper bound of the list. -/
theorem le_listMax_of_mem {a : ℚ} {l : List ℚ} (h : a ∈ l) : a ≤ listMax l := by
  cases l with
  | nil => exact absurd h (List.not_mem_nil a)
  | cons x xs =>
    rcases List.mem_cons.mp h with h1 | h1
    · subst h1
      exact (foldl_max_bound xs a).1
    · exact (foldl_max_bound xs x).2 a h1

/-- A `min`-fold returns either its accumulator or a member. -/
theorem foldl_min_mem (xs : List ℚ) :
    ∀ acc : ℚ, xs.foldl min acc = acc ∨ xs.foldl min acc ∈ xs := by
  induction xs with
  | nil => intro acc; exact Or.inl rfl
  | cons y ys ih =>
    intro acc
    rcases ih (min acc y) with h | h
    · rcases min_choice acc y with hm | hm
      · exact Or.inl (by rw [List.foldl_cons, h, hm])
      · refine Or.inr (List.mem_cons.mpr (Or.inl ?_))
        rw [List.foldl_cons, h, hm]
    · exact Or.inr (List.mem_cons.mpr (Or.inr h))

/-- A `max`-fold returns either its accumulator or a member. -/
theorem foldl_max_mem (xs : List ℚ) :
    ∀ acc : ℚ, xs.foldl max acc = acc ∨ xs.foldl max acc ∈ xs := by
  induction xs with
  | nil => intro acc; exact Or.inl rfl
  | cons y ys ih =>
    intro acc
    rcases ih (max acc y) with h | h
    · rcases max_choice acc y with hm | hm
      · exact Or.inl (by rw [List.foldl_cons, h, hm])
      · refine Or.inr (List.mem_cons.mpr (Or.inl ?_))
        rw [List.foldl_cons, h, hm]
    · exact Or.inr (List.mem_cons.mpr (Or.inr h))

/-- `listMin` of a nonempty list is one of its members. -/
theorem listMin_mem {l : List ℚ} (h : l ≠ []) : listMin l ∈ l := by
  cases l with
  | nil => exact absurd rfl h
  | cons x xs =>
    rcases foldl_min_mem xs x with h1 | h1
    · rw [listMin, h1]; exact List.mem_cons_self x xs
    · exact List.mem_cons.mpr (Or.inr (by rw [listMin]; exact h1))

/-- `listMax` of a nonempty list is one of its members. -/
theorem listMax_mem {l : List ℚ} (h : l ≠ []) : listMax l ∈ l := by
  cases l with
  | nil => exact absurd rfl h
  | cons x xs =>
    rcases foldl_max_mem xs x with h1 | h1
    · rw [listMax, h1]; exact List.mem_cons_self x xs
    · exact List.mem_cons.mpr (Or.inr (by rw [listMax]; exact h1))

/-- C6: every normalized activity value lies in [0, 100]; a type group
whose raw values are all equal gets exactly 50.0 for every member; and
otherwise the value is the min-max formula over the node's own kind group. -/
theorem normalize_activity_range (input : List (String × ActivityMetric))
    (nid : String) (m : NormalizedMetric)
    (hm : (nid, m) ∈ normalize_activity_values input) :
    (0 ≤ m.normalized_value ∧ m.normalized_value ≤ 100) ∧
    ((∀ v ∈ groupRawValues input m.node_type,
        ∀ w ∈ groupRawValues input m.node_type, v = w) →
      m.normalized_value = 50) ∧
    (listMin (groupRawValues input m.node_type) ≠
        listMax (groupRawValues input m.node_type) →
      m.normalized_value =
        (m.raw_value - listMin (groupRawValues input m.node_type)) /
          (listMax (groupRawValues input m.node_type) -
            listMin (groupRawValues input m.node_type)) * 100) := by
  simp only [normalize_activity_values, List.mem_map] at hm
  obtain ⟨p, hp, heq⟩ := hm
  rw [Prod.mk.injEq] at heq
  obtain ⟨hn, hmeq⟩ := heq
  subst hmeq
  dsimp only
  have hraw : p.2.raw_value ∈ groupRawValues input p.2.node_type := by
    simp only [groupRawValues, List.mem_map, List.mem_filter]
    exact ⟨p, ⟨hp, by simp⟩, rfl⟩
  have hne : groupRawValues input p.2.node_type ≠ [] :=
    List.ne_nil_of_mem hraw
  have hminle := listMin_le_of_mem hraw
  have hlemax := le_listMax_of_mem hraw
  by_cases hcond : listMax (groupRawValues input p.2.node_type) =
      listMin (groupRawValues input p.2.node_type)
  · rw [if_pos hcond]
    refine ⟨⟨by norm_num, by norm_num⟩, fun _ => rfl, fun hne2 => absurd hcond.symm hne2⟩
  · rw [if_neg hcond]
    have hlt : listMin (groupRawValues input p.2.node_type) <
        listMax (groupRawValues input p.2.node_type) :=
      lt_of_le_of_ne (le_trans hminle hlemax) fun hh => hcond hh.symm
    have hden : (0 : ℚ) < listMax (groupRawValues input p.2.node_type) -
        listMin (groupRawValues input p.2.node_type) := sub_pos.mpr hlt
    have hq0 : (0 : ℚ) ≤ (p.2.raw_value - listMin (groupRawValues input p.2.node_type)) /
        (listMax (groupRawValues input p.2.node_type) -
          listMin (groupRawValues input p.2.node_type)) :=
      div_nonneg (sub_nonneg.mpr hminle) hden.le
    have hq1 : (p.2.raw_value - listMin (groupRawValues input p.2.node_type)) /
        (listMax (groupRawValues input p.2.node_type) -
          listMin (groupRawValues input p.2.node_type)) ≤ 1 :=
      (div_le_one hden).mpr (sub_le_sub_right hlemax _)
    refine ⟨⟨mul_nonneg hq0 (by norm_num), ?_⟩, ?_, fun _ => rfl⟩
    · calc (p.2.raw_value - listMin (groupRawValues input p.2.node_type)) /
            (listMax (groupRawValues input p.2.node_type) -
              listMin (groupRawValues input p.2.node_type)) * 100
          ≤ 1 * 100 := mul_le_mul_of_nonneg_right hq1 (by norm_num)
        _ = 100 := one_mul 100
    · intro hall
      exact absurd
        (hall (listMax (groupRawValues input p.2.node_type)) (listMax_mem hne)
          (listMin (groupRawValues input p.2.node_type)) (listMin_mem hne))
        hcond

/-- Witness for C6 at a concrete input (two blocks with raw values 3 and
7): the record for `n2` is in range and follows the min-max formula. -/
theorem normalize_activity_range_witness :
    (0 ≤ c6m.normalized_value ∧ c6m.normalized_value ≤ 100) ∧
    c6m.normalized_value =
      (c6m.raw_value - listMin (groupRawValues c6input c6m.node_type)) /
        (listMax (groupRawValues c6input c6m.node_type) -
          listMin (groupRawValues c6input c6m.node_type)) * 100 :=
  ⟨(normalize_activity_range c6input "n2" c6m
      (by norm_num [normalize_activity_values, c6input, c6m, groupRawValues,
        listMin, listMax])).1,
   (normalize_activity_range c6input "n2" c6m
      (by norm_num [normalize_activity_values, c6input, c6m, groupRawValues,
        listMin, listMax])).2.2
      (by norm_num [c6input, c6m, groupRawValues, listMin, listMax])⟩

/-- The clearing pass resets exactly the listed nodes. -/
theorem clearAllAnom_eq (l : List Node) :
    ∀ (attrs : String → AnomAttr) (n : String),
      clearAllAnom attrs l n =
        if l.any (fun nd => decide (nd.id = n)) then anomClear else attrs n := by
  induction l with
  | nil => intro attrs n; simp [clearAllAnom]
  | cons nd rest ih =>
    intro attrs n
    have hstep : clearAllAnom attrs (nd :: rest) =
        clearAllAnom (updFn attrs nd.id anomClear) rest := rfl
    rw [hstep, ih]
    simp only [List.any_cons]
    by_cases h2 : nd.id = n
    · by_cases hr : rest.any (fun nd => decide (nd.id = n)) = true
      · simp [h2, hr]
      · simp [h2, hr, updFn]
    · by_cases hr : rest.any (fun nd => decide (nd.id = n)) = true
      · simp [h2, hr]
      · simp [h2, hr, updFn, Ne.symm h2]

/-- The flagging pass does not touch nodes outside the anomaly list. -/
theorem setAnoms_not_mem (g : Graph) (l : List Anomaly) :
    ∀ (attrs : String → AnomAttr) (n : String),
      n ∉ l.map Anomaly.node_id → setAnoms g attrs l n = attrs n := by
  induction l with
  | nil => intro attrs n _; rfl
  | cons a rest ih =>
    intro attrs n h
    simp only [List.map_cons, List.mem_cons, not_or] at h
    obtain ⟨h1, h2⟩ := h
    have hstep : setAnoms g attrs (a :: rest) =
        setAnoms g
          (if hasNode g a.node_id then
            updFn attrs a.node_id ⟨true, a.anomaly_score, some a.anomaly_type⟩
          else attrs) rest := rfl
    rw [hstep, ih _ n h2]
    split
    · exact if_neg h1
    · rfl

/-- The flagging pass sets the flag of every listed node that exists in the
graph. -/
theorem setAnoms_mem_flag (g : Graph) (l : List Anomaly) :
    ∀ (attrs : String → AnomAttr) (n : String), hasNode g n = true →
      n ∈ l.map Anomaly.node_id → (setAnoms g attrs l n).is_anomaly = true := by
  induction l with
  | nil => intro attrs n _ h; exact absurd h (List.not_mem_nil n)
  | cons a rest ih =>
    intro attrs n hg h
    by_cases hr : n ∈ rest.map Anomaly.node_id
    · exact ih _ n hg hr
    · have hn : n = a.node_id := by
        simp only [List.map_cons, List.mem_cons] at h
        rcases h with h | h
        · exact h
        · exact absurd h hr
      have hstep : setAnoms g attrs (a :: rest) =
          setAnoms g
            (if hasNode g a.node_id then
              updFn attrs a.node_id ⟨true, a.anomaly_score, some a.anomaly_type⟩
            else attrs) rest := rfl
      rw [hstep, setAnoms_not_mem g rest _ n hr, ← hn, hg]
      simp [updFn]

/-- C7: after any `get_anomalies` pass, a node of the graph is flagged
exactly when it appears in the returned anomaly list, and every node of the
graph not in that list carries the cleared attributes (`is_anomaly = false`,
score 0, type `None`) — regardless of what any earlier pass had stored. -/
theorem anomaly_flags_match_returned_list (stdev : List ℚ → ℚ) (g : Graph)
    (node_type : Option String) (method : String) (threshold : ℚ)
    (attrs : String → AnomAttr) (n : String) (hn : hasNode g n = true) :
    (((get_anomalies stdev g node_type method threshold attrs).2 n).is_anomaly = true ↔
      n ∈ (get_anomalies stdev g node_type method threshold attrs).1.map
        Anomaly.node_id) ∧
    (n ∉ (get_anomalies stdev g node_type method threshold attrs).1.map
        Anomaly.node_id →
      (get_anomalies stdev g node_type method threshold attrs).2 n = anomClear) := by
  have hclear : clearAllAnom attrs g.nodes n = anomClear := by
    rw [clearAllAnom_eq g.nodes attrs n, if_pos]
    exact hn
  have hnot : n ∉ (detect_anomalies stdev g node_type method threshold).map
      Anomaly.node_id →
      (get_anomalies stdev g node_type method threshold attrs).2 n = anomClear := by
    intro hmem
    show setAnoms g (clearAllAnom attrs g.nodes)
      (detect_anomalies stdev g node_type method threshold) n = anomClear
    rw [setAnoms_not_mem g _ _ n hmem, hclear]
  refine ⟨⟨?_, ?_⟩, hnot⟩
  · intro hflag
    by_contra hmem
    rw [hnot hmem] at hflag
    exact Bool.false_ne_true hflag
  · intro hmem
    exact setAnoms_mem_flag g _ _ n hn hmem

/-- Witness for C7: node `a1` was flagged by an earlier pass (`attrs7`),
the current pass returns no anomalies, and afterwards `a1` carries the
cleared attributes. -/
theorem anomaly_flags_match_returned_list_witness :
    (get_anomalies (fun _ => 0) exG none "percentile" 2 attrs7).2 "a1" = anomClear :=
  (anomaly_flags_match_returned_list (fun _ => 0) exG none "percentile" 2 attrs7
    "a1" (by decide)).2 (by decide)

/-- Edge insertion preserves existing undirected edges. -/
theorem hasEdgeU_addEdge_mono (sg : UGraph) (a b x y : String)
    (h : hasEdgeU sg x y = true) : hasEdgeU (addEdgeIfAbsent sg a b) x y = true := by
  unfold addEdgeIfAbsent
  split
  · exact h
  · unfold hasEdgeU at h ⊢
    simp [List.any_append, h]

/-- Edge insertion makes the inserted unordered pair present. -/
theorem hasEdgeU_addEdge_self (sg : UGraph) (a b : String) :
    hasEdgeU (addEdgeIfAbsent sg a b) a b = true := by
  unfold addEdgeIfAbsent
  split
  · assumption
  · simp [hasEdgeU, List.any_append, edgeMatches]

/-- The inner pair loop preserves existing undirected edges. -/
theorem hasEdgeU_addPairsFrom_mono (rest : List String) :
    ∀ (sg : UGraph) (a x y : String), hasEdgeU sg x y = true →
      hasEdgeU (addPairsFrom sg a rest) x y = true := by
  induction rest with
  | nil => intro sg a x y h; exact h
  | cons c cs ih =>
    intro sg a x y h
    exact ih (addEdgeIfAbsent sg a c) a x y (hasEdgeU_addEdge_mono sg a c x y h)

/-- After the inner pair loop, the lead address is connected to every
member of the rest list. -/
theorem hasEdgeU_addPairsFrom_self (rest : List String) :
    ∀ (sg : UGraph) (a b : String), b ∈ rest →
      hasEdgeU (addPairsFrom sg a rest) a b = true := by
  induction rest with
  | nil => intro sg a b h; exact absurd h (List.not_mem_nil b)
  | cons c cs ih =>
    intro sg a b hb
    rcases List.mem_cons.mp hb with h | h
    · subst h
      exact hasEdgeU_addPairsFrom_mono cs (addEdgeIfAbsent sg a b) a a b
        (hasEdgeU_addEdge_self sg a b)
    · exact ih (addEdgeIfAbsent sg a c) a b h

/-- The double pair loop preserves existing undirected edges. -/
theorem hasEdgeU_addAllPairs_mono (l : List String) :
    ∀ (sg : UGraph) (x y : String), hasEdgeU sg x y = true →
      hasEdgeU (addAllPairs sg l) x y = true := by
  induction l with
  | nil => intro sg x y h; exact h
  | cons a rest ih =>
    intro sg x y h
    exact ih (addPairsFrom sg a rest) x y (hasEdgeU_addPairsFrom_mono rest sg a x y h)

/-- After the double pair loop over a list, every position pair i < j of
the list is connected. -/
theorem addAllPairs_pair (l : List String) :
    ∀ (sg : UGraph) (i j : Nat) (hi : i < l.length) (hj : j < l.length),
      i < j → hasEdgeU (addAllPairs sg l) (l.get ⟨i, hi⟩) (l.get ⟨j, hj⟩) = true := by
  induction l with
  | nil => intro sg i j hi; exact absurd hi (Nat.not_lt_zero i)
  | cons a rest ih =>
    intro sg i j hi hj hij
    match i, j, hi, hj, hij with
    | 0, Nat.succ m, hi, hj, hij =>
      have hm : m < rest.length := Nat.lt_of_succ_lt_succ hj
      exact hasEdgeU_addAllPairs_mono rest (addPairsFrom sg a rest) _ _
        (hasEdgeU_addPairsFrom_self rest sg a (rest.get ⟨m, hm⟩)
          (List.get_mem rest m hm))
    | Nat.succ k, Nat.succ m, hi, hj, hij =>
      exact ih (addPairsFrom sg a rest) k m (Nat.lt_of_succ_lt_succ hi)
        (Nat.lt_of_succ_lt_succ hj) (Nat.lt_of_succ_lt_succ hij)

/-- `edgeMatches` is symmetric in the pair it looks for. -/
theorem edgeMatches_symm (x y : String) (e : String × String) :
    edgeMatches x y e = edgeMatches y x e := by
  unfold edgeMatches
  apply decide_eq_decide.mpr
  constructor <;> intro h <;> tauto

/-- An absent unordered pair has zero stored edges. -/
theorem hasEdgeU_false_count (sg : UGraph) (a b : String)
    (h : hasEdgeU sg a b = false) : edgeCountU sg a b = 0 := by
  unfold hasEdgeU at h
  unfold edgeCountU
  rw [List.countP_eq_zero]
  intro e he
  rw [List.any_eq_false] at h
  simp only [h e he, Bool.false_eq_true, not_false_eq_true]

/-- The at-most-one-stored-edge invariant of the projection graphs. -/
def pairInvariant (sg : UGraph) : Prop := ∀ x y, edgeCountU sg x y ≤ 1

/-- Conditional edge insertion preserves the at-most-one invariant. -/
theorem inv_addEdge (sg : UGraph) (a b : String) (h : pairInvariant sg) :
    pairInvariant (addEdgeIfAbsent sg a b) := by
  intro x y
  unfold addEdgeIfAbsent
  split
  · exact h x y
  next hfalse =>
    have hf : hasEdgeU sg a b = false := by
      revert hfalse
      cases hasEdgeU sg a b <;> simp
    show List.countP (edgeMatches x y) (sg.edgesU ++ [(a, b)]) ≤ 1
    rw [List.countP_append]
    by_cases hm : edgeMatches x y (a, b) = true
    · have hprop := of_decide_eq_true hm
      have hcnt : List.countP (edgeMatches x y) sg.edgesU = 0 := by
        rcases hprop with ⟨h1, h2⟩ | ⟨h1, h2⟩
        · rw [← h1, ← h2]
          exact hasEdgeU_false_count sg a b hf
        · rw [← h1, ← h2]
          have hsym : edgeMatches b a = edgeMatches a b :=
            funext (edgeMatches_symm b a)
          rw [hsym]
          exact hasEdgeU_false_count sg a b hf
      rw [hcnt]
      simp [List.countP_cons, hm]
    · have hz : List.countP (edgeMatches x y) [(a, b)] = 0 := by
        simp [List.countP_cons, hm]
      rw [hz]
      exact h x y

/-- The inner pair loop preserves the at-most-one invariant. -/
theorem inv_addPairsFrom (rest : List String) :
    ∀ (sg : UGraph) (a : String), pairInvariant sg →
      pairInvariant (addPairsFrom sg a rest) := by
  induction rest with
  | nil => intro sg a h; exact h
  | cons c cs ih =>
    intro sg a h
    exact ih (addEdgeIfAbsent sg a c) a (inv_addEdge sg a c h)

/-- The double pair loop preserves the at-most-one invariant. -/
theorem inv_addAllPairs (l : List String) :
    ∀ sg : UGraph, pairInvariant sg → pairInvariant (addAllPairs sg l) := by
  induction l with
  | nil => intro sg h; exact h
  | cons a rest ih =>
    intro sg h
    exact ih (addPairsFrom sg a rest) (inv_addPairsFrom rest sg a h)

/-- The per-transaction projection step preserves existing edges. -/
theorem hasEdgeU_projStep_mono (g : Graph) (recent : List String)
    (sg : UGraph) (t x y : String) (h : hasEdgeU sg x y = true) :
    hasEdgeU (projStep g recent sg t) x y = true := by
  unfold projStep
  split
  · exact hasEdgeU_addAllPairs_mono _ sg x y h
  · exact h

/-- The projection fold preserves existing edges. -/
theorem hasEdgeU_foldProj_mono (g : Graph) (recent : List String)
    (rl : List String) :
    ∀ (sg : UGraph) (x y : String), hasEdgeU sg x y = true →
      hasEdgeU (rl.foldl (projStep g recent) sg) x y = true := by
  induction rl with
  | nil => intro sg x y h; exact h
  | cons t0 rest ih =>
    intro sg x y h
    exact ih (projStep g recent sg t0) x y
      (hasEdgeU_projStep_mono g recent sg t0 x y h)

/-- The projection fold preserves the at-most-one invariant. -/
theorem inv_foldProj (g : Graph) (recent : List String) (rl : List String) :
    ∀ sg : UGraph, pairInvariant sg →
      pairInvariant (rl.foldl (projStep g recent) sg) := by
  induction rl with
  | nil => intro sg h; exact h
  | cons t0 rest ih =>
    intro sg h
    apply ih
    unfold projStep
    split
    · exact inv_addAllPairs _ sg h
    · exact h

/-- If a transaction of the window connects the pair (for any starting
subgraph), the full projection fold connects it. -/
theorem foldProj_reaches (g : Graph) (recent : List String) (tx x y : String)
    (hty : nodeTypeOf g tx = some "transaction")
    (hedge : ∀ sg : UGraph,
      hasEdgeU (addAllPairs sg (allAddressesOf g recent tx)) x y = true) :
    ∀ (rl : List String) (sg : UGraph), tx ∈ rl →
      hasEdgeU (rl.foldl (projStep g recent) sg) x y = true := by
  intro rl
  induction rl with
  | nil => intro sg h; exact absurd h (List.not_mem_nil tx)
  | cons t0 rest ih =>
    intro sg hmem
    by_cases hr : tx ∈ rest
    · exact ih (projStep g recent sg t0) hr
    · have ht0 : t0 = tx := by
        rcases List.mem_cons.mp hmem with h | h
        · exact h.symm
        · exact absurd h hr
      subst ht0
      apply hasEdgeU_foldProj_mono g recent rest
      unfold projStep
      rw [if_pos hty]
      exact hedge sg

/-- C10: in the address projection, for every transaction of the window,
every position pair i < j of the concatenation of its in-window input and
output addresses is connected by exactly one undirected edge — in
particular an address occurring both as input and output of the same
transaction gets a self-loop. -/
theorem address_projection_pair_edges (g : Graph) (recent : List String)
    (tx : String) (htx : tx ∈ recent)
    (hty : nodeTypeOf g tx = some "transaction") (i j : Nat)
    (hi : i < (allAddressesOf g recent tx).length)
    (hj : j < (allAddressesOf g recent tx).length) (hij : i < j) :
    hasEdgeU (create_address_subgraph g recent)
        ((allAddressesOf g recent tx).get ⟨i, hi⟩)
        ((allAddressesOf g recent tx).get ⟨j, hj⟩) = true ∧
    edgeCountU (create_address_subgraph g recent)
        ((allAddressesOf g recent tx).get ⟨i, hi⟩)
        ((allAddressesOf g recent tx).get ⟨j, hj⟩) = 1 := by
  have hedge : ∀ sg : UGraph,
      hasEdgeU (addAllPairs sg (allAddressesOf g recent tx))
        ((allAddressesOf g recent tx).get ⟨i, hi⟩)
        ((allAddressesOf g recent tx).get ⟨j, hj⟩) = true :=
    fun sg => addAllPairs_pair (allAddressesOf g recent tx) sg i j hi hj hij
  have hreach : hasEdgeU (create_address_subgraph g recent)
      ((allAddressesOf g recent tx).get ⟨i, hi⟩)
      ((allAddressesOf g recent tx).get ⟨j, hj⟩) = true := by
    unfold create_address_subgraph
    exact foldProj_reaches g recent tx _ _ hty hedge recent
      ⟨addressNodesOf g recent, []⟩ htx
  have hinv : pairInvariant (create_address_subgraph g recent) := by
    unfold create_address_subgraph
    apply inv_foldProj
    intro x y
    show List.countP (edgeMatches x y) [] ≤ 1
    simp
  refine ⟨hreach, Nat.le_antisymm (hinv _ _) ?_⟩
  have hex : ∃ e ∈ (create_address_subgraph g recent).edgesU,
      edgeMatches ((allAddressesOf g recent tx).get ⟨i, hi⟩)
        ((allAddressesOf g recent tx).get ⟨j, hj⟩) e = true := by
    rw [← List.any_eq_true]
    exact hreach
  exact List.countP_pos_iff.mpr hex

/-- Witness for C10: in `exG10`, transaction `t3` has the same address
`a5` as input and output; the claim theorem applied at positions 0 < 1 of
`["a5", "a5"]` yields a self-loop edge on `a5`, stored exactly once. -/
theorem address_projection_pair_edges_witness :
    hasEdgeU (create_address_subgraph exG10 ["t3", "a5"]) "a5" "a5" = true ∧
    edgeCountU (create_address_subgraph exG10 ["t3", "a5"]) "a5" "a5" = 1 :=
  address_projection_pair_edges exG10 ["t3", "a5"] "t3" (by decide) (by decide)
    0 1 (by decide) (by decide) (by decide)

end GraphChain
